import Mathlib

/-!
# Service-catalog installer: dependency check and process pipeline

A shallow embedding of `installer/cmd/main.go`:

* `checkDependencies` looks up the four required binaries and reports all the
  missing ones in one error;
* `Pipeline` wires a sequence of `exec.Cmd` values like a Unix pipeline,
  starts them, waits for them and returns the output of the last one, the
  collected standard error and the first error met.
-/

namespace Installer

/-! ## Basic types -/

/-- Go `[]byte`: a sequence of byte values; the nil slice is the empty list. -/
abbrev Bytes := List Nat

/-- Go `error` values, identified by their message. -/
abbrev Error := String

/-! ## Binary names that we depend on -/

def GcloudBinaryName : String := "gcloud"

def KubectlBinaryName : String := "kubectl"

def CfsslBinaryName : String := "cfssl"

def CfssljsonBinaryName : String := "cfssljson"

/-! ## checkDependencies -/

/-- The slice `requiredCmds` built at the top of `checkDependencies`. -/
def requiredCmds : List String :=
  [GcloudBinaryName, KubectlBinaryName, CfsslBinaryName, CfssljsonBinaryName]

/-- The result of `exec.LookPath` has a nil error. -/
def resolves (lookPath : String → Except Error String) (cmd : String) : Bool :=
  match lookPath cmd with
  | .ok _ => true
  | .error _ => false

/-- The body of the `for _, cmd := range requiredCmds` loop: the name is
appended to `missingCmds` when `exec.LookPath` returns an error. -/
def missingStep (lookPath : String → Except Error String)
    (missingCmds : List String) (cmd : String) : List String :=
  match lookPath cmd with
  | .error _ => missingCmds ++ [cmd]
  | .ok _ => missingCmds

/-- The function `checkDependencies`, with `exec.LookPath` as a parameter.
`none` is the nil error, `some msg` the error built by `fmt.Errorf`. -/
def checkDependencies (lookPath : String → Except Error String) : Option Error :=
  let missingCmds := requiredCmds.foldl (missingStep lookPath) []
  if missingCmds.length > 0 then
    some (String.intercalate "," missingCmds ++ " commands not found in the PATH")
  else
    none

/-- Go `strings.Contains`: `sub` occurs in `s` as a contiguous run of characters. -/
def containsStr (s sub : String) : Bool :=
  decide (sub.toList <:+: s.toList)

/-- A resolver under which everything but `cfssljson` is found. -/
def lookPathNoCfssljson (cmd : String) : Except Error String :=
  if cmd = "cfssljson" then Except.error "executable file not found in $PATH"
  else Except.ok ("/usr/bin/" ++ cmd)

/-- A resolver under which only `kubectl` is found. -/
def lookPathOnlyKubectl (cmd : String) : Except Error String :=
  if cmd = "kubectl" then Except.ok "/usr/bin/kubectl"
  else Except.error "executable file not found in $PATH"

/-! ## Pipeline: the model of `exec.Cmd`

The slice `cmds` holds pointers to pairwise distinct `exec.Cmd` objects, so it
is a list of command values and an assignment through `cmds[i]` replaces the
entry at position `i`.

The package `os/exec` is not part of the repository; its three methods used by
`Pipeline` are modelled here. What a command does in its environment is part
of the command: whether `StdoutPipe`, `Start` and `Wait` fail, the bytes the
process writes as a function of the bytes it reads, and how far the copying of
its streams has come when `Pipeline` returns.

`Start` only starts the process. A pipe made by `StdoutPipe` is an operating
system pipe between two processes: the reader gets all that the writer writes,
whatever the timing. A stream directed to a `bytes.Buffer` is copied into it by
a goroutine of its own, which `Wait` joins. A buffer written by one copier
holds a part of the stream from its start, and all of it once `Wait` has
returned for the command. The buffer `stderr` is shared by the copiers of all
the stages that were started and is not synchronised: with more than one
copier its contents are not determined by the program, bytes can be lost or
out of order, and they are given by the environment.
-/

/-- An `io.Reader` that may be assigned to `Stdin`. -/
inductive Reader where
  /-- The nil reader: the process reads from the null device. -/
  | null : Reader
  /-- A reader assigned by the caller, yielding `data`. -/
  | caller (data : Bytes) : Reader
  /-- The read end of the pipe made by `cmds[i].StdoutPipe()`. -/
  | pipe (i : Nat) : Reader
  deriving DecidableEq

/-- An `io.Writer` that may be assigned to `Stdout` or `Stderr`. -/
inductive Writer where
  /-- The nil writer: the output goes to the null device. -/
  | null : Writer
  /-- A writer assigned by the caller. -/
  | caller (id : Nat) : Writer
  /-- The write end of the pipe made by `cmds[i].StdoutPipe()`. -/
  | pipe (i : Nat) : Writer
  /-- The local buffer `output` of `Pipeline`. -/
  | outputBuf : Writer
  /-- The local buffer `stderr` of `Pipeline`. -/
  | stderrBuf : Writer
  deriving DecidableEq

/-- An `exec.Cmd`: the three stream fields that `Pipeline` assigns, and the
behaviour of the command in its environment. -/
structure Cmd where
  /-- Field `Stdin`. -/
  Stdin : Reader
  /-- Field `Stdout`. -/
  Stdout : Writer
  /-- Field `Stderr`. -/
  Stderr : Writer
  /-- The error with which `StdoutPipe` fails for a reason other than
  `Stdout` being set (process already started, `os.Pipe` failing). -/
  pipeErr : Option Error
  /-- The error returned by `Start` (`none` when the process starts). -/
  startErr : Option Error
  /-- The error returned by `Wait` (`none` when the process exits with status 0
  and the copying of its streams succeeds). -/
  waitErr : Option Error
  /-- The bytes the process writes to its standard output, given the bytes
  it reads from its standard input. -/
  writesOut : Bytes → Bytes
  /-- The bytes the process writes to its standard error, given the bytes
  it reads from its standard input. -/
  writesErr : Bytes → Bytes
  /-- How many bytes of its standard output have been copied into a buffer
  when `Pipeline` returns without having waited for the command. -/
  copiedOut : Nat
  /-- How many bytes of its standard error have been copied into a buffer
  when `Pipeline` returns without having waited for the command. -/
  copiedErr : Nat
  /-- What a buffer holds when `Pipeline` returns, if this command is the last one
  started of several whose copiers write that buffer. -/
  raced : Bytes

/-- A call that `Pipeline` makes on a stage, with the error it returned. -/
inductive Event where
  /-- The call `cmds[i].Start()`. -/
  | start (i : Nat) (err : Option Error) : Event
  /-- The call `cmds[i].Wait()`. -/
  | wait (i : Nat) (err : Option Error) : Event
  deriving DecidableEq

/-- A goroutine that `Start` runs to copy one stream of a process into a
`bytes.Buffer`. -/
structure Copier where
  /-- The stage whose stream is copied. -/
  stage : Nat
  /-- All the bytes the process writes to the stream. -/
  all : Bytes
  /-- How many of them are in the buffer while the command has not been waited for. -/
  copied : Nat
  /-- What the buffer holds if this copier is the last started of several. -/
  raced : Bytes

/-- The two local buffers of `Pipeline`, each given by the copiers that write it,
the contents of the pipes between the stages, and the calls made so far. -/
structure State where
  /-- Bytes written into the pipe made by `cmds[i].StdoutPipe()`. -/
  pipes : Nat → Bytes
  /-- The copiers that write the buffer `output`, the last started first. -/
  output : List Copier
  /-- The copiers that write the buffer `stderr`, the last started first. -/
  stderr : List Copier
  /-- The stages for which `Wait` has returned. -/
  waited : List Nat
  /-- The `Start` and `Wait` calls made, oldest first. -/
  trace : List Event

/-- The state after the wiring: empty buffers, no process, no call made. -/
def State.init : State :=
  { pipes := fun _ => [], output := [], stderr := [], waited := [], trace := [] }

/-- The method `(*exec.Cmd).StdoutPipe` called on `cmds[i]`: it fails when `Stdout` is
already set, and otherwise sets `Stdout` to the write end of a new pipe and
returns the read end. -/
def Cmd.StdoutPipe (c : Cmd) (i : Nat) : Cmd × Reader × Option Error :=
  if c.Stdout ≠ Writer.null then
    (c, Reader.null, some "exec: Stdout already set")
  else
    match c.pipeErr with
    | some err => (c, Reader.null, some err)
    | none => ({ c with Stdout := Writer.pipe i }, Reader.pipe i, none)

/-- All the bytes a process reads from reader `r`. -/
def State.readAll (st : State) : Reader → Bytes
  | Reader.null => []
  | Reader.caller data => data
  | Reader.pipe i => st.pipes i

/-- A process is started with writer `w` for a stream on which it writes
`cp.all`: a pipe carries the bytes to its reader, a buffer gets the copier
`cp`. -/
def State.connect (st : State) (w : Writer) (cp : Copier) : State :=
  match w with
  | Writer.null => st
  | Writer.caller _ => st
  | Writer.pipe i =>
    { st with pipes := fun k => if k = i then st.pipes i ++ cp.all else st.pipes k }
  | Writer.outputBuf => { st with output := cp :: st.output }
  | Writer.stderrBuf => { st with stderr := cp :: st.stderr }

/-- The method `(*bytes.Buffer).Bytes` at the time `Pipeline` returns, for a buffer
written by the given copiers: nothing without a copier; with one copier the
whole stream if its command has been waited for and the part copied so far
otherwise; with several copiers what the environment made of the race. -/
def State.bufferBytes (st : State) : List Copier → Bytes
  | [] => []
  | [cp] => if cp.stage ∈ st.waited then cp.all else cp.all.take cp.copied
  | cp :: _ :: _ => cp.raced

/-- The method `(*exec.Cmd).Start` called on `cmds[i]`: when the process starts, its
standard output and standard error are connected to their writers. -/
def Cmd.Start (c : Cmd) (i : Nat) (st : State) : State × Option Error :=
  match c.startErr with
  | some err => ({ st with trace := st.trace ++ [Event.start i (some err)] }, some err)
  | none =>
    let input := st.readAll c.Stdin
    let st1 := st.connect c.Stdout
      { stage := i, all := c.writesOut input, copied := c.copiedOut, raced := c.raced }
    let st2 := st1.connect c.Stderr
      { stage := i, all := c.writesErr input, copied := c.copiedErr, raced := c.raced }
    ({ st2 with trace := st2.trace ++ [Event.start i none] }, none)

/-- The method `(*exec.Cmd).Wait` called on `cmds[i]`: it returns when the process
has exited and its copiers have finished. -/
def Cmd.Wait (c : Cmd) (i : Nat) (st : State) : State × Option Error :=
  ({ st with waited := st.waited ++ [i], trace := st.trace ++ [Event.wait i c.waitErr] },
    c.waitErr)

/-! ## Pipeline: the function -/

/-- The loop `for i, cmd := range cmds[:last]`, with `n` iterations left and
starting at index `i`. It returns the commands as the loop leaves them and the
error of the `StdoutPipe` call on which it returned, if any. On that return
`cmds[i+1].Stdin` has been assigned the nil reader. The last case (an index
out of range) is not reached from `Pipeline`, where `i + n` is the last index. -/
def wireLoop : Nat → Nat → List Cmd → List Cmd × Option Error
  | 0, _, cmds => (cmds, none)
  | n + 1, i, cmds =>
    match cmds[i]?, cmds[i + 1]? with
    | some cmd, some next =>
      match cmd.StdoutPipe i with
      | (_, r, some err) => (cmds.set (i + 1) { next with Stdin := r }, some err)
      | (cmd1, r, none) =>
        wireLoop n (i + 1)
          ((cmds.set (i + 1) { next with Stdin := r }).set i { cmd1 with Stderr := Writer.stderrBuf })
    | _, _ => (cmds, none)

/-- The assignment `cmds[last].Stdout, cmds[last].Stderr = &output, &stderr`. -/
def connectLast (cmds : List Cmd) (last : Nat) : List Cmd :=
  match cmds[last]? with
  | some cmd => cmds.set last { cmd with Stdout := Writer.outputBuf, Stderr := Writer.stderrBuf }
  | none => cmds

/-- The loop `for _, cmd := range cmds` that starts the commands, from index `i` on;
it returns at the first `Start` that fails. -/
def startLoop : Nat → List Cmd → State → State × Option Error
  | _, [], st => (st, none)
  | i, cmd :: rest, st =>
    match cmd.Start i st with
    | (st1, some err) => (st1, some err)
    | (st1, none) => startLoop (i + 1) rest st1

/-- The loop `for _, cmd := range cmds` that waits for the commands, from index `i`
on; it returns at the first `Wait` that fails. -/
def waitLoop : Nat → List Cmd → State → State × Option Error
  | _, [], st => (st, none)
  | i, cmd :: rest, st =>
    match cmd.Wait i st with
    | (st1, some err) => (st1, some err)
    | (st1, none) => waitLoop (i + 1) rest st1

/-- What a call of `Pipeline` returns and does. -/
structure Outcome where
  /-- The first result, `pipeLineOutput`. -/
  pipeLineOutput : Bytes
  /-- The second result, `collectedStandardError`. -/
  collectedStandardError : Bytes
  /-- The third result, `pipeLineError`. -/
  pipeLineError : Option Error
  /-- The `Start` and `Wait` calls made, oldest first. -/
  trace : List Event
  /-- The commands as the call leaves them. -/
  cmds : List Cmd

/-- The function `Pipeline`. -/
def Pipeline (cmds : List Cmd) : Outcome :=
  if cmds.length < 1 then
    { pipeLineOutput := [], collectedStandardError := [], pipeLineError := none,
      trace := [], cmds := cmds }
  else
    let last := cmds.length - 1
    match wireLoop last 0 cmds with
    | (cmds1, some err) =>
      { pipeLineOutput := [], collectedStandardError := [], pipeLineError := some err,
        trace := [], cmds := cmds1 }
    | (cmds1, none) =>
      let cmds2 := connectLast cmds1 last
      match startLoop 0 cmds2 State.init with
      | (st, some err) =>
        { pipeLineOutput := st.bufferBytes st.output,
          collectedStandardError := st.bufferBytes st.stderr,
          pipeLineError := some err, trace := st.trace, cmds := cmds2 }
      | (st, none) =>
        match waitLoop 0 cmds2 st with
        | (st1, some err) =>
          { pipeLineOutput := st1.bufferBytes st1.output,
            collectedStandardError := st1.bufferBytes st1.stderr,
            pipeLineError := some err, trace := st1.trace, cmds := cmds2 }
        | (st1, none) =>
          { pipeLineOutput := st1.bufferBytes st1.output,
            collectedStandardError := st1.bufferBytes st1.stderr,
            pipeLineError := none, trace := st1.trace, cmds := cmds2 }

/-! ## Vocabulary of the statements about `Pipeline` -/

/-- Every `StdoutPipe` call of the wiring loop succeeds: each command but the
last has no `Stdout` assigned and can be given a pipe. -/
def connects (cmds : List Cmd) : Prop :=
  ∀ c ∈ cmds.dropLast, c.Stdout = Writer.null ∧ c.pipeErr = none

/-- The commands as `Pipeline` wires them when every `StdoutPipe` call succeeds,
for a slice whose first command has index `i` and is given `stdin`. -/
def wiredFrom (i : Nat) (stdin : Reader) : List Cmd → List Cmd
  | [] => []
  | c :: rest =>
    { c with
      Stdin := stdin
      Stdout := if rest.isEmpty then Writer.outputBuf else Writer.pipe i
      Stderr := Writer.stderrBuf } :: wiredFrom (i + 1) (Reader.pipe i) rest

/-- The commands as the loop over `cmds[:last]` leaves them when every `StdoutPipe`
call succeeds: the last command has only its `Stdin` assigned. -/
def wiredOpen (i : Nat) (stdin : Reader) : List Cmd → List Cmd
  | [] => []
  | c :: rest =>
    { c with
      Stdin := stdin
      Stdout := if rest.isEmpty then c.Stdout else Writer.pipe i
      Stderr := if rest.isEmpty then c.Stderr else Writer.stderrBuf } ::
      wiredOpen (i + 1) (Reader.pipe i) rest

/-- The standard output of the last of `cmds` when the first reads `input` and
each later one reads the standard output of the previous one. -/
def composedOutput (input : Bytes) (cmds : List Cmd) : Bytes :=
  cmds.foldl (fun b c => c.writesOut b) input

/-- The bytes that the first command of the pipeline reads from the `Stdin` the
caller assigned to it. -/
def firstInput : List Cmd → Bytes
  | [] => []
  | c :: _ => State.init.readAll c.Stdin

/-- The bytes stage `j` reads from its standard input: what the caller gave to the first
stage, passed through the stages before `j`. -/
def stageInput (cmds : List Cmd) (j : Nat) : Bytes :=
  composedOutput (firstInput cmds) (cmds.take j)

/-- The bytes stage `j` writes to its standard error. -/
def stageErr (cmds : List Cmd) (j : Nat) : Bytes :=
  match cmds[j]? with
  | some c => c.writesErr (stageInput cmds j)
  | none => []

/-- The events of the successful `Start` calls on stages `i`, ..., `i + n - 1`. -/
def startEvents (i n : Nat) : List Event :=
  (List.range' i n).map (fun j => Event.start j none)

/-- The events of the successful `Wait` calls on stages `i`, ..., `i + n - 1`. -/
def waitEvents (i n : Nat) : List Event :=
  (List.range' i n).map (fun j => Event.wait j none)

/-! ## Example commands -/

/-- Turns the ASCII lower-case letters of `b` into upper case. -/
def upperBytes (b : Bytes) : Bytes :=
  b.map fun x => if 97 ≤ x ∧ x ≤ 122 then x - 32 else x

/-- A command that writes `hello` and a newline to its standard output. -/
def echoHello : Cmd :=
  { Stdin := Reader.null, Stdout := Writer.null, Stderr := Writer.null, pipeErr := none,
    startErr := none, waitErr := none,
    writesOut := fun _ => [104, 101, 108, 108, 111, 10], writesErr := fun _ => [],
    copiedOut := 0, copiedErr := 0, raced := [] }

/-- A command that copies its standard input to its standard output in upper case
and reports the number of bytes on its standard error. -/
def toUpper : Cmd :=
  { Stdin := Reader.caller [120], Stdout := Writer.null, Stderr := Writer.caller 7,
    pipeErr := none, startErr := none, waitErr := none,
    writesOut := upperBytes, writesErr := fun b => [b.length],
    copiedOut := 0, copiedErr := 0, raced := [] }

/-- A command whose executable is missing, so that `Start` fails. -/
def failsToStart : Cmd :=
  { echoHello with startErr := some "exec: no such file or directory" }

/-- A command that writes `hello`, complains on its standard error and exits with status 1. -/
def exitsNonZero : Cmd :=
  { echoHello with waitErr := some "exit status 1", writesErr := fun _ => [33] }

/-- A command to which the caller has already assigned a standard output. -/
def stdoutAssigned : Cmd :=
  { echoHello with Stdout := Writer.caller 1 }

/-- A command that writes nothing, stays alive for a while and exits with status 0. -/
def silentSleeper : Cmd :=
  { echoHello with writesOut := fun _ => [] }

/-- A command that writes `B` to its standard error at once and exits with status 0.
Its copier and that of the stage before it both write the shared buffer, which
is left empty. -/
def writesB : Cmd :=
  { echoHello with writesOut := fun _ => [], writesErr := fun _ => [66], raced := [] }

/-- Two commands to both of which the caller has assigned a `Stdin`. -/
def bothWithStdin : List Cmd :=
  [{ echoHello with Stdin := Reader.caller [1, 2] }, toUpper]

/-! ## Lemmas on the wiring, start and wait loops -/

theorem connects_cons_cons (c d : Cmd) (rest : List Cmd) :
    connects (c :: d :: rest) ↔
      (c.Stdout = Writer.null ∧ c.pipeErr = none) ∧ connects (d :: rest) := by
  simp [connects, List.dropLast]

theorem getElem_opt_mid {α : Type} (pre : List α) (c : α) (rest : List α) :
    (pre ++ c :: rest)[pre.length]? = some c := by
  rw [List.getElem?_append_right (Nat.le_refl _)]
  simp

theorem getElem_opt_mid_succ {α : Type} (pre : List α) (c d : α) (rest : List α) :
    (pre ++ c :: d :: rest)[pre.length + 1]? = some d := by
  have h := getElem_opt_mid (pre ++ [c]) d rest
  simpa using h

theorem set_mid {α : Type} (pre : List α) (c x : α) (rest : List α) :
    (pre ++ c :: rest).set pre.length x = pre ++ x :: rest := by
  simp

theorem set_mid_succ {α : Type} (pre : List α) (c d x : α) (rest : List α) :
    (pre ++ c :: d :: rest).set (pre.length + 1) x = pre ++ c :: x :: rest := by
  simp

theorem wireLoop_ok (rest : List Cmd) :
    ∀ (pre : List Cmd) (c : Cmd), connects (c :: rest) →
      wireLoop rest.length pre.length (pre ++ c :: rest) =
        (pre ++ wiredOpen pre.length c.Stdin (c :: rest), none) := by
  induction rest with
  | nil => intro pre c _; simp [wireLoop, wiredOpen]
  | cons d rest ih =>
    intro pre c h
    rw [connects_cons_cons] at h
    obtain ⟨⟨h1, h2⟩, h3⟩ := h
    have h4 : connects ({ d with Stdin := Reader.pipe pre.length } :: rest) := by
      cases rest with
      | nil => simp [connects]
      | cons x xs => simpa [connects_cons_cons] using h3
    have ih1 := ih (pre ++ [{ c with Stdout := Writer.pipe pre.length, Stderr := Writer.stderrBuf }])
      { d with Stdin := Reader.pipe pre.length } h4
    simp only [List.length_append, List.length_singleton, List.append_assoc,
      List.singleton_append] at ih1
    simp only [List.length_cons, wireLoop, getElem_opt_mid, getElem_opt_mid_succ, set_mid,
      set_mid_succ, Cmd.StdoutPipe, h1, h2]
    simp only [h2] at ih1
    simp [ih1, wiredOpen, h2]

theorem wireLoop_fail (rest : List Cmd) :
    ∀ (pre : List Cmd) (c : Cmd), ¬ connects (c :: rest) →
      ∃ cmds1 err, wireLoop rest.length pre.length (pre ++ c :: rest) = (cmds1, some err) := by
  induction rest with
  | nil => intro pre c h; exact absurd (by simp [connects]) h
  | cons d rest ih =>
    intro pre c h
    rw [connects_cons_cons] at h
    by_cases h1 : c.Stdout = Writer.null
    · cases h2 : c.pipeErr with
      | some e =>
        simp only [List.length_cons, wireLoop, getElem_opt_mid, getElem_opt_mid_succ, set_mid,
          set_mid_succ, Cmd.StdoutPipe, h1, h2]
        simp
      | none =>
        have h3 : ¬ connects ({ d with Stdin := Reader.pipe pre.length } :: rest) := by
          cases rest with
          | nil => simp [connects] at h; tauto
          | cons x xs => simp [connects_cons_cons] at h ⊢; tauto
        have ih1 := ih (pre ++ [{ c with Stdout := Writer.pipe pre.length, Stderr := Writer.stderrBuf }])
          { d with Stdin := Reader.pipe pre.length } h3
        simp only [List.length_append, List.length_singleton, List.append_assoc,
          List.singleton_append] at ih1
        simp only [List.length_cons, wireLoop, getElem_opt_mid, getElem_opt_mid_succ, set_mid,
          set_mid_succ, Cmd.StdoutPipe, h1, h2]
        simp only [h2] at ih1
        simpa using ih1
    · simp only [List.length_cons, wireLoop, getElem_opt_mid, getElem_opt_mid_succ, set_mid,
        set_mid_succ, Cmd.StdoutPipe]
      simp [h1]

theorem connectLast_cons (x : Cmd) (xs : List Cmd) (n : Nat) :
    connectLast (x :: xs) (n + 1) = x :: connectLast xs n := by
  simp only [connectLast, List.getElem?_cons_succ]
  cases xs[n]? <;> simp

theorem connectLast_wiredOpen (rest : List Cmd) :
    ∀ (i : Nat) (s : Reader) (c : Cmd),
      connectLast (wiredOpen i s (c :: rest)) rest.length = wiredFrom i s (c :: rest) := by
  induction rest with
  | nil => intro i s c; simp [connectLast, wiredOpen, wiredFrom]
  | cons d rest ih =>
    intro i s c
    have h := ih (i + 1) (Reader.pipe i) d
    rw [wiredOpen, wiredFrom, List.length_cons, connectLast_cons, h]
    simp

theorem wireLoop_connects (c : Cmd) (rest : List Cmd) (h : connects (c :: rest)) :
    wireLoop rest.length 0 (c :: rest) = (wiredOpen 0 c.Stdin (c :: rest), none) := by
  simpa using wireLoop_ok rest [] c h

theorem wireLoop_not_connects (c : Cmd) (rest : List Cmd) (h : ¬ connects (c :: rest)) :
    ∃ cmds1 err, wireLoop rest.length 0 (c :: rest) = (cmds1, some err) := by
  simpa using wireLoop_fail rest [] c h

/-- The shape of `Pipeline` on a non-empty slice whose wiring succeeds. -/
theorem Pipeline_connects (c : Cmd) (rest : List Cmd) (h : connects (c :: rest)) :
    Pipeline (c :: rest) =
      match startLoop 0 (wiredFrom 0 c.Stdin (c :: rest)) State.init with
      | (st, some err) =>
        { pipeLineOutput := st.bufferBytes st.output,
          collectedStandardError := st.bufferBytes st.stderr,
          pipeLineError := some err, trace := st.trace,
          cmds := wiredFrom 0 c.Stdin (c :: rest) }
      | (st, none) =>
        match waitLoop 0 (wiredFrom 0 c.Stdin (c :: rest)) st with
        | (st1, err) =>
          { pipeLineOutput := st1.bufferBytes st1.output,
            collectedStandardError := st1.bufferBytes st1.stderr,
            pipeLineError := err, trace := st1.trace,
            cmds := wiredFrom 0 c.Stdin (c :: rest) } := by
  have hw := wireLoop_connects c rest h
  have hl := connectLast_wiredOpen rest 0 c.Stdin c
  simp only [Pipeline, List.length_cons, Nat.add_sub_cancel, hw, hl]
  simp only [show ¬ (rest.length + 1 < 1) by omega, if_false]
  rcases hs : startLoop 0 (wiredFrom 0 c.Stdin (c :: rest)) State.init with ⟨st, _ | e⟩
  · simp only
    rcases hwt : waitLoop 0 (wiredFrom 0 c.Stdin (c :: rest)) st with ⟨st1, _ | e1⟩ <;> rfl
  · rfl

/-- When a `StdoutPipe` call fails, `Pipeline` returns its error, no bytes, and
has made no `Start` or `Wait` call. -/
theorem Pipeline_not_connects (cmds : List Cmd) (h : ¬ connects cmds) :
    ∃ err, (Pipeline cmds).pipeLineError = some err ∧ (Pipeline cmds).trace = [] ∧
      (Pipeline cmds).pipeLineOutput = [] ∧ (Pipeline cmds).collectedStandardError = [] := by
  cases cmds with
  | nil => exact absurd (by simp [connects]) h
  | cons c rest =>
    obtain ⟨cmds1, err, hw⟩ := wireLoop_not_connects c rest h
    refine ⟨err, ?_⟩
    simp only [Pipeline, List.length_cons, Nat.add_sub_cancel, hw]
    simp

theorem startEvents_succ (i n : Nat) :
    startEvents i (n + 1) = Event.start i none :: startEvents (i + 1) n := by
  simp [startEvents, List.range'_succ]

theorem waitEvents_succ (i n : Nat) :
    waitEvents i (n + 1) = Event.wait i none :: waitEvents (i + 1) n := by
  simp [waitEvents, List.range'_succ]

/-- Starting the stages of `pre`, which all start, when a further stage follows: their
standard outputs go into pipes, so the buffer `output` is not touched. -/
theorem startLoop_split (pre : List Cmd) :
    ∀ (i : Nat) (s : Reader) (st : State) (post : List Cmd), post ≠ [] →
      (∀ c ∈ pre, c.startErr = none) → (∀ j, i ≤ j → st.pipes j = []) →
      ∃ (st1 : State) (s1 : Reader),
        startLoop i (wiredFrom i s (pre ++ post)) st =
          startLoop (i + pre.length) (wiredFrom (i + pre.length) s1 post) st1 ∧
        st1.output = st.output ∧
        st1.waited = st.waited ∧
        (pre = [] → st1.stderr = st.stderr) ∧
        st1.trace = st.trace ++ startEvents i pre.length ∧
        (∀ j, i + pre.length ≤ j → st1.pipes j = []) ∧
        st1.readAll s1 = composedOutput (st.readAll s) pre := by
  induction pre with
  | nil =>
    intro i s st post _ _ hp
    exact ⟨st, s, by simp, rfl, rfl, fun _ => rfl, by simp [startEvents], by simpa using hp,
      by simp [composedOutput]⟩
  | cons c pre ih =>
    intro i s st post hpost hstart hp
    have hc : c.startErr = none := hstart c (List.mem_cons_self _ _)
    have hne : (pre ++ post).isEmpty = false := by
      cases pre with
      | nil => cases post with
        | nil => exact absurd rfl hpost
        | cons x xs => rfl
      | cons x xs => rfl
    obtain ⟨st1, s1, h1, h2, h3, _, h4, h5, h6⟩ := ih (i + 1) (Reader.pipe i)
      { pipes := fun k => if k = i then st.pipes i ++ c.writesOut (st.readAll s) else st.pipes k
        output := st.output
        stderr := { stage := i, all := c.writesErr (st.readAll s), copied := c.copiedErr,
                    raced := c.raced } :: st.stderr
        waited := st.waited
        trace := st.trace ++ [Event.start i none] } post hpost
      (fun x hx => hstart x (List.mem_cons_of_mem _ hx))
      (fun j hj => by
        have : j ≠ i := by omega
        simp only [this, if_false]
        exact hp j (by omega))
    refine ⟨st1, s1, ?_, ?_, ?_, ?_, ?_, ?_, ?_⟩
    · rw [List.cons_append, wiredFrom, startLoop]
      simp only [Cmd.Start, hc, hne, State.connect]
      rw [List.length_cons, ← Nat.add_assoc, Nat.add_right_comm i pre.length 1]
      simpa using h1
    · simpa using h2
    · simpa using h3
    · intro h; cases h
    · rw [h4]
      simp [startEvents_succ]
    · intro j hj
      exact h5 j (by simp only [List.length_cons] at hj; omega)
    · rw [h6]
      simp [composedOutput, State.readAll, hp i (Nat.le_refl i)]

/-- The start loop when stage `pre.length` is the first that fails to start. -/
theorem startLoop_fail (pre post : List Cmd) (f : Cmd) (e : Error) (i : Nat) (s : Reader)
    (st : State) (hpre : ∀ c ∈ pre, c.startErr = none) (hf : f.startErr = some e)
    (hp : ∀ j, i ≤ j → st.pipes j = []) :
    ∃ st1 : State,
      startLoop i (wiredFrom i s (pre ++ f :: post)) st = (st1, some e) ∧
      st1.output = st.output ∧
      st1.waited = st.waited ∧
      (pre = [] → st1.stderr = st.stderr) ∧
      st1.trace = st.trace ++ startEvents i pre.length ++
        [Event.start (i + pre.length) (some e)] := by
  obtain ⟨st1, s1, h1, h2, h3, h4, h5, _, _⟩ :=
    startLoop_split pre i s st (f :: post) (List.cons_ne_nil _ _) hpre hp
  refine ⟨{ st1 with trace := st1.trace ++ [Event.start (i + pre.length) (some e)] },
    ?_, h2, h3, h4, by simp [h5]⟩
  rw [h1, wiredFrom, startLoop]
  simp [Cmd.Start, hf]

/-- The start loop when every stage starts: the buffer `output` gets the copier of
the standard output of the last stage. -/
theorem startLoop_all (pre : List Cmd) (l : Cmd) (i : Nat) (s : Reader) (st : State)
    (hall : ∀ c ∈ pre ++ [l], c.startErr = none) (hp : ∀ j, i ≤ j → st.pipes j = []) :
    ∃ st1 : State,
      startLoop i (wiredFrom i s (pre ++ [l])) st = (st1, none) ∧
      st1.output =
        { stage := i + pre.length, all := composedOutput (st.readAll s) (pre ++ [l]),
          copied := l.copiedOut, raced := l.raced } :: st.output ∧
      st1.waited = st.waited ∧
      (pre = [] → st1.stderr =
        { stage := i, all := l.writesErr (st.readAll s), copied := l.copiedErr,
          raced := l.raced } :: st.stderr) ∧
      st1.trace = st.trace ++ startEvents i (pre.length + 1) := by
  obtain ⟨st1, s1, h1, h2, h3, h4, h5, _, h6⟩ :=
    startLoop_split pre i s st [l] (List.cons_ne_nil _ _)
      (fun c hc => hall c (List.mem_append_left _ hc)) hp
  have hl : l.startErr = none := hall l (by simp)
  refine ⟨{ pipes := st1.pipes
            output := { stage := i + pre.length, all := l.writesOut (st1.readAll s1),
                        copied := l.copiedOut, raced := l.raced } :: st1.output
            stderr := { stage := i + pre.length, all := l.writesErr (st1.readAll s1),
                        copied := l.copiedErr, raced := l.raced } :: st1.stderr
            waited := st1.waited
            trace := st1.trace ++ [Event.start (i + pre.length) none] }, ?_, ?_, h3, ?_, ?_⟩
  · rw [h1, wiredFrom, startLoop]
    simp [Cmd.Start, hl, State.connect, State.readAll, wiredFrom, startLoop]
  · simp [h2, h6, composedOutput, List.foldl_append]
  · intro hnil
    subst hnil
    simp only [composedOutput, List.foldl_nil] at h6
    simp [h4 rfl, h6]
  · simp [h5, startEvents, List.range'_concat]

theorem waitLoop_wiredFrom (l : List Cmd) :
    ∀ (i k : Nat) (s : Reader) (st : State),
      waitLoop i (wiredFrom k s l) st = waitLoop i l st := by
  induction l with
  | nil => intro i k s st; rfl
  | cons c l ih =>
    intro i k s st
    simp only [wiredFrom, waitLoop, Cmd.Wait]
    cases c.waitErr <;> simp [ih]

/-- Waiting for the stages of `pre`, whose waits all succeed. -/
theorem waitLoop_split (pre : List Cmd) :
    ∀ (i : Nat) (st : State) (post : List Cmd), (∀ c ∈ pre, c.waitErr = none) →
      waitLoop i (pre ++ post) st =
        waitLoop (i + pre.length) post
          { st with waited := st.waited ++ List.range' i pre.length
                    trace := st.trace ++ waitEvents i pre.length } := by
  induction pre with
  | nil => intro i st post _; simp [waitEvents]
  | cons c pre ih =>
    intro i st post h
    have hc : c.waitErr = none := h c (List.mem_cons_self _ _)
    rw [List.cons_append, waitLoop]
    simp only [Cmd.Wait, hc]
    rw [ih (i + 1) _ post (fun x hx => h x (List.mem_cons_of_mem _ hx))]
    simp [waitEvents_succ, List.range'_succ, Nat.add_assoc, Nat.add_comm 1]

/-- The wait loop when stage `pre.length` is the first whose wait fails. -/
theorem waitLoop_fail (pre post : List Cmd) (f : Cmd) (e : Error) (st : State)
    (hpre : ∀ c ∈ pre, c.waitErr = none) (hf : f.waitErr = some e) :
    waitLoop 0 (pre ++ f :: post) st =
      ({ st with waited := st.waited ++ List.range' 0 pre.length ++ [pre.length]
                 trace := st.trace ++ waitEvents 0 pre.length ++
                   [Event.wait pre.length (some e)] }, some e) := by
  rw [waitLoop_split pre 0 st (f :: post) hpre, waitLoop]
  simp [Cmd.Wait, hf]

/-- The wait loop when every wait succeeds. -/
theorem waitLoop_all (l : List Cmd) (st : State) (h : ∀ c ∈ l, c.waitErr = none) :
    waitLoop 0 l st =
      ({ st with waited := st.waited ++ List.range' 0 l.length
                 trace := st.trace ++ waitEvents 0 l.length }, none) := by
  have := waitLoop_split l 0 st [] h
  simpa [waitLoop] using this

/-- A list of commands either has no failure under `p`, or splits at the first one. -/
theorem first_failure (p : Cmd → Option Error) (l : List Cmd) :
    (∀ c ∈ l, p c = none) ∨
      ∃ pre f post e, l = pre ++ f :: post ∧ (∀ c ∈ pre, p c = none) ∧ p f = some e := by
  induction l with
  | nil => left; simp
  | cons c l ih =>
    cases hc : p c with
    | some e => exact Or.inr ⟨[], c, l, e, rfl, by simp, hc⟩
    | none =>
      rcases ih with h | ⟨pre, f, post, e, h1, h2, h3⟩
      · left
        intro x hx
        rcases List.mem_cons.1 hx with rfl | hx
        · exact hc
        · exact h x hx
      · refine Or.inr ⟨c :: pre, f, post, e, by simp [h1], ?_, h3⟩
        intro x hx
        rcases List.mem_cons.1 hx with rfl | hx
        · exact hc
        · exact h2 x hx

/-- The call of `Pipeline` when the wiring succeeds and stage `pre.length` is the first
that fails to start. -/
theorem Pipeline_start_fail (pre post : List Cmd) (f : Cmd) (e : Error)
    (hconn : connects (pre ++ f :: post)) (hpre : ∀ c ∈ pre, c.startErr = none)
    (hf : f.startErr = some e) :
    (Pipeline (pre ++ f :: post)).pipeLineError = some e ∧
    (Pipeline (pre ++ f :: post)).trace =
      startEvents 0 pre.length ++ [Event.start pre.length (some e)] ∧
    (Pipeline (pre ++ f :: post)).pipeLineOutput = [] ∧
    (pre = [] → (Pipeline (pre ++ f :: post)).collectedStandardError = []) := by
  obtain ⟨c, rest, hc⟩ : ∃ c rest, pre ++ f :: post = c :: rest := by
    cases pre with
    | nil => exact ⟨f, post, rfl⟩
    | cons x xs => exact ⟨x, xs ++ f :: post, rfl⟩
  obtain ⟨st1, h1, h2, _, h4, h5⟩ :=
    startLoop_fail pre post f e 0 c.Stdin State.init hpre hf (fun _ _ => rfl)
  rw [hc] at hconn h1 ⊢
  rw [Pipeline_connects c rest hconn, h1]
  refine ⟨rfl, by simp [h5, State.init], by simp [h2, State.init, State.bufferBytes], ?_⟩
  intro hnil
  simp [h4 hnil, State.init, State.bufferBytes]

/-- The call of `Pipeline` when the wiring succeeds and every stage starts: the state
after the start loop, and the result in terms of the wait loop. -/
theorem Pipeline_all_started (cmds : List Cmd) (hne : cmds ≠ []) (hconn : connects cmds)
    (hstart : ∀ c ∈ cmds, c.startErr = none) :
    ∃ (st1 : State) (cp : Copier),
      st1.output = [cp] ∧
      cp.stage = cmds.length - 1 ∧
      cp.all = composedOutput (firstInput cmds) cmds ∧
      st1.waited = [] ∧
      st1.trace = startEvents 0 cmds.length ∧
      (Pipeline cmds).pipeLineOutput =
        (waitLoop 0 cmds st1).1.bufferBytes (waitLoop 0 cmds st1).1.output ∧
      (Pipeline cmds).pipeLineError = (waitLoop 0 cmds st1).2 ∧
      (Pipeline cmds).trace = (waitLoop 0 cmds st1).1.trace := by
  obtain ⟨c, rest, rfl⟩ : ∃ c rest, cmds = c :: rest := by
    cases cmds with
    | nil => exact absurd rfl hne
    | cons x xs => exact ⟨x, xs, rfl⟩
  obtain ⟨pre, l, hl0⟩ := (List.eq_nil_or_concat (c :: rest)).resolve_left hne
  have hl : c :: rest = pre ++ [l] := by rw [hl0, List.concat_eq_append]
  have key := startLoop_all pre l 0 c.Stdin State.init (hl ▸ hstart) (fun _ _ => rfl)
  rw [← hl] at key
  obtain ⟨st1, h1, h2, h3, _, h5⟩ := key
  have hlen : pre.length + 1 = (c :: rest).length := by rw [hl]; simp
  refine ⟨st1, _, by simpa [State.init] using h2, ?_, ?_, by simpa [State.init] using h3,
    by simpa [State.init, hlen] using h5, ?_⟩
  · simp only [Nat.zero_add]
    omega
  · simp [State.init, firstInput]
  · rw [Pipeline_connects c rest hconn, h1]
    simp [waitLoop_wiredFrom]

theorem Pipeline_cmds (c : Cmd) (rest : List Cmd) (h : connects (c :: rest)) :
    (Pipeline (c :: rest)).cmds = wiredFrom 0 c.Stdin (c :: rest) := by
  rw [Pipeline_connects c rest h]
  rcases startLoop 0 (wiredFrom 0 c.Stdin (c :: rest)) State.init with ⟨st, _ | e⟩ <;> rfl

theorem wiredFrom_length (l : List Cmd) :
    ∀ (i : Nat) (s : Reader), (wiredFrom i s l).length = l.length := by
  induction l with
  | nil => intro i s; rfl
  | cons c l ih => intro i s; simp [wiredFrom, ih]

theorem wiredFrom_getElem_opt (l : List Cmd) :
    ∀ (i : Nat) (s : Reader) (j : Nat),
      (wiredFrom i s l)[j]? = (l[j]?).map fun c =>
        { c with
          Stdin := if j = 0 then s else Reader.pipe (i + j - 1)
          Stdout := if j + 1 < l.length then Writer.pipe (i + j) else Writer.outputBuf
          Stderr := Writer.stderrBuf } := by
  induction l with
  | nil => intro i s j; simp [wiredFrom]
  | cons c l ih =>
    intro i s j
    cases j with
    | zero =>
      cases l <;> simp [wiredFrom]
    | succ j =>
      rw [wiredFrom, List.getElem?_cons_succ, List.getElem?_cons_succ, ih]
      cases hj : l[j]? with
      | none => rfl
      | some d =>
        simp only [Option.map_some', List.length_cons, Nat.add_lt_add_iff_right]
        cases j with
        | zero => simp
        | succ j =>
          have h1 : i + 1 + (j + 1) - 1 = i + (j + 1 + 1) - 1 := by omega
          have h2 : i + 1 + (j + 1) = i + (j + 1 + 1) := by omega
          simp [h1, h2]

/-! ## checkDependencies: theorems -/

/-- C1: `checkDependencies` returns the nil error exactly when `gcloud`, `kubectl`,
`cfssl` and `cfssljson` all resolve. -/
theorem checkDependencies_nil_iff (lookPath : String → Except Error String) :
    requiredCmds = ["gcloud", "kubectl", "cfssl", "cfssljson"] ∧
    (checkDependencies lookPath = none ↔
      ∀ cmd ∈ requiredCmds, resolves lookPath cmd = true) := by
  refine ⟨rfl, ?_⟩
  rcases h1 : lookPath "gcloud" with e1 | p1 <;>
  rcases h2 : lookPath "kubectl" with e2 | p2 <;>
  rcases h3 : lookPath "cfssl" with e3 | p3 <;>
  rcases h4 : lookPath "cfssljson" with e4 | p4 <;>
  simp [checkDependencies, requiredCmds, missingStep, resolves, GcloudBinaryName,
    KubectlBinaryName, CfsslBinaryName, CfssljsonBinaryName, h1, h2, h3, h4]

/-- C2: when some required name does not resolve, the error message of
`checkDependencies` is the unresolvable names, in the order `gcloud`, `kubectl`,
`cfssl`, `cfssljson` and each once, joined by a comma and followed by
` commands not found in the PATH`; every unresolvable name occurs in it. -/
theorem checkDependencies_lists_missing (lookPath : String → Except Error String)
    (hmiss : ∃ cmd ∈ requiredCmds, resolves lookPath cmd = false) :
    ∃ missing : List String,
      checkDependencies lookPath =
        some (String.intercalate "," missing ++ " commands not found in the PATH") ∧
      missing = ["gcloud", "kubectl", "cfssl", "cfssljson"].filter
        (fun cmd => !resolves lookPath cmd) ∧
      missing.Sublist ["gcloud", "kubectl", "cfssl", "cfssljson"] ∧
      missing.Nodup ∧
      (∀ cmd ∈ requiredCmds, (cmd ∈ missing ↔ resolves lookPath cmd = false)) ∧
      (∀ cmd ∈ requiredCmds, resolves lookPath cmd = false →
        containsStr (String.intercalate "," missing ++ " commands not found in the PATH")
          cmd = true) := by
  refine ⟨_, ?_, rfl, List.filter_sublist _, ?_, ?_, ?_⟩ <;>
  revert hmiss <;>
  rcases h1 : lookPath "gcloud" with e1 | p1 <;>
  rcases h2 : lookPath "kubectl" with e2 | p2 <;>
  rcases h3 : lookPath "cfssl" with e3 | p3 <;>
  rcases h4 : lookPath "cfssljson" with e4 | p4 <;>
  simp [checkDependencies, requiredCmds, missingStep, resolves, GcloudBinaryName,
    KubectlBinaryName, CfsslBinaryName, CfssljsonBinaryName, h1, h2, h3, h4,
    List.filter_cons] <;>
  decide

/-- Witness for C2: with only `kubectl` found, the message lists the other three. -/
theorem checkDependencies_lists_missing_witness :
    ∃ missing : List String,
      checkDependencies lookPathOnlyKubectl =
        some (String.intercalate "," missing ++ " commands not found in the PATH") ∧
      missing = ["gcloud", "kubectl", "cfssl", "cfssljson"].filter
        (fun cmd => !resolves lookPathOnlyKubectl cmd) ∧
      missing.Sublist ["gcloud", "kubectl", "cfssl", "cfssljson"] ∧
      missing.Nodup ∧
      (∀ cmd ∈ requiredCmds, (cmd ∈ missing ↔ resolves lookPathOnlyKubectl cmd = false)) ∧
      (∀ cmd ∈ requiredCmds, resolves lookPathOnlyKubectl cmd = false →
        containsStr (String.intercalate "," missing ++ " commands not found in the PATH")
          cmd = true) :=
  checkDependencies_lists_missing lookPathOnlyKubectl ⟨"gcloud", by decide, by decide⟩

/-- C3, counterexample: when `cfssl` resolves and `cfssljson` does not, the message
is `cfssljson commands not found in the PATH`, in which the resolvable name
`cfssl` occurs. -/
theorem checkDependencies_message_has_resolvable :
    (∃ cmd ∈ requiredCmds, resolves lookPathNoCfssljson cmd = false) ∧
    checkDependencies lookPathNoCfssljson =
      some "cfssljson commands not found in the PATH" ∧
    "cfssl" ∈ requiredCmds ∧
    resolves lookPathNoCfssljson "cfssl" = true ∧
    containsStr "cfssljson commands not found in the PATH" "cfssl" = true := by
  decide

/-- C3, amended: when some required name does not resolve, no required name that
resolves is one of the comma-separated names of the message, and a required
name that resolves occurs in the message as a substring exactly when it is
`cfssl` and `cfssljson` does not resolve. -/
theorem checkDependencies_message_no_resolvable (lookPath : String → Except Error String)
    (hmiss : ∃ cmd ∈ requiredCmds, resolves lookPath cmd = false) :
    ∃ (missing : List String) (msg : String),
      checkDependencies lookPath = some msg ∧
      msg = String.intercalate "," missing ++ " commands not found in the PATH" ∧
      missing = requiredCmds.filter (fun cmd => !resolves lookPath cmd) ∧
      (∀ cmd ∈ requiredCmds, resolves lookPath cmd = true → cmd ∉ missing) ∧
      (∀ cmd ∈ requiredCmds, resolves lookPath cmd = true →
        (containsStr msg cmd = true ↔
          cmd = "cfssl" ∧ resolves lookPath "cfssljson" = false)) := by
  refine ⟨_, _, ?_, rfl, rfl, ?_, ?_⟩ <;>
  revert hmiss <;>
  rcases h1 : lookPath "gcloud" with e1 | p1 <;>
  rcases h2 : lookPath "kubectl" with e2 | p2 <;>
  rcases h3 : lookPath "cfssl" with e3 | p3 <;>
  rcases h4 : lookPath "cfssljson" with e4 | p4 <;>
  simp [checkDependencies, requiredCmds, missingStep, resolves, GcloudBinaryName,
    KubectlBinaryName, CfsslBinaryName, CfssljsonBinaryName, h1, h2, h3, h4,
    List.filter_cons] <;>
  decide

/-- Witness for C3, amended: the resolver that finds only `kubectl`. -/
theorem checkDependencies_message_no_resolvable_witness :
    ∃ (missing : List String) (msg : String),
      checkDependencies lookPathOnlyKubectl = some msg ∧
      msg = String.intercalate "," missing ++ " commands not found in the PATH" ∧
      missing = requiredCmds.filter (fun cmd => !resolves lookPathOnlyKubectl cmd) ∧
      (∀ cmd ∈ requiredCmds, resolves lookPathOnlyKubectl cmd = true → cmd ∉ missing) ∧
      (∀ cmd ∈ requiredCmds, resolves lookPathOnlyKubectl cmd = true →
        (containsStr msg cmd = true ↔
          cmd = "cfssl" ∧ resolves lookPathOnlyKubectl "cfssljson" = false)) :=
  checkDependencies_message_no_resolvable lookPathOnlyKubectl ⟨"gcloud", by decide, by decide⟩

/-! ## Pipeline: theorems -/

/-- C4: `Pipeline` called with no command returns no output, no collected standard
error and the nil error, and makes no `Start` or `Wait` call. -/
theorem Pipeline_no_commands :
    (Pipeline []).pipeLineOutput = [] ∧
    (Pipeline []).collectedStandardError = [] ∧
    (Pipeline []).pipeLineError = none ∧
    (Pipeline []).trace = [] ∧
    (Pipeline []).cmds = [] := by
  refine ⟨rfl, rfl, rfl, rfl, rfl⟩

/-- C5: when the wiring succeeds, every stage starts and every wait succeeds, the
output returned is the standard output of the last stage, each stage reading
the standard output of the previous one, and the error is nil; a single stage
gives what it writes to its standard output, with what it writes to its
standard error as the collected error. -/
theorem Pipeline_output_composed (cmds : List Cmd) (hne : cmds ≠ [])
    (hconn : connects cmds) (hstart : ∀ c ∈ cmds, c.startErr = none)
    (hwait : ∀ c ∈ cmds, c.waitErr = none) :
    (Pipeline cmds).pipeLineOutput = composedOutput (firstInput cmds) cmds ∧
    (Pipeline cmds).pipeLineError = none ∧
    (Pipeline cmds).trace = startEvents 0 cmds.length ++ waitEvents 0 cmds.length ∧
    (∀ c, cmds = [c] →
      (Pipeline cmds).pipeLineOutput = c.writesOut (State.init.readAll c.Stdin) ∧
      (Pipeline cmds).collectedStandardError = c.writesErr (State.init.readAll c.Stdin)) := by
  obtain ⟨st1, cp, h1, h2, h3, h4, h5, h6, h7, h8⟩ :=
    Pipeline_all_started cmds hne hconn hstart
  rw [waitLoop_all cmds st1 hwait] at h6 h7 h8
  simp only at h6 h7 h8
  have hpos : 0 < cmds.length := List.length_pos.2 hne
  have hmem : cp.stage ∈ st1.waited ++ List.range' 0 cmds.length := by
    rw [h2, h4]
    simp only [List.nil_append, List.mem_range'_1]
    omega
  have ho : (Pipeline cmds).pipeLineOutput = composedOutput (firstInput cmds) cmds := by
    rw [h6, h1]
    simp only [State.bufferBytes, hmem, if_true]
    exact h3
  refine ⟨ho, h7, by rw [h8, h5], ?_⟩
  intro c hc
  subst hc
  have hs : c.startErr = none := hstart c (List.mem_singleton.2 rfl)
  have hw : c.waitErr = none := hwait c (List.mem_singleton.2 rfl)
  refine ⟨by rw [ho]; rfl, ?_⟩
  simp [Pipeline, wireLoop, connectLast, startLoop, waitLoop, Cmd.Start, Cmd.Wait, hs, hw,
    State.connect, State.bufferBytes, State.init, State.readAll]

/-- Witness for C5: `hello` piped into the upper-casing command gives `HELLO`; a
single stage gives what it writes, with an empty collected error. -/
theorem Pipeline_output_composed_witness :
    (Pipeline [echoHello, toUpper]).pipeLineOutput = [72, 69, 76, 76, 79, 10] ∧
    (Pipeline [echoHello, toUpper]).pipeLineError = none ∧
    (Pipeline [echoHello]).pipeLineOutput = [104, 101, 108, 108, 111, 10] ∧
    (Pipeline [echoHello]).collectedStandardError = [] ∧
    (Pipeline [echoHello]).pipeLineError = none :=
  have h2 := Pipeline_output_composed [echoHello, toUpper] (by simp)
    (by simp [connects, echoHello]) (by simp [echoHello, toUpper]) (by simp [echoHello, toUpper])
  have h1 := Pipeline_output_composed [echoHello] (by simp)
    (by simp [connects]) (by simp [echoHello]) (by simp [echoHello])
  ⟨h2.1, h2.2.1, h1.1, (h1.2.2.2 echoHello rfl).2, h1.2.1⟩

/-- C6: when the wiring succeeds and stage `pre.length` is the first that fails to
start, `Pipeline` has started the stages before it in order, has called
`Start` on no later stage and `Wait` on no stage, and returns the start error
with the contents of the buffers: no output, since the last stage never ran,
and no collected error when no stage was started. -/
theorem Pipeline_first_start_failure (pre post : List Cmd) (f : Cmd) (e : Error)
    (hconn : connects (pre ++ f :: post)) (hpre : ∀ c ∈ pre, c.startErr = none)
    (hf : f.startErr = some e) :
    (Pipeline (pre ++ f :: post)).pipeLineError = some e ∧
    (Pipeline (pre ++ f :: post)).trace =
      (List.range pre.length).map (fun j => Event.start j none) ++
        [Event.start pre.length (some e)] ∧
    (∀ j err, pre.length < j → Event.start j err ∉ (Pipeline (pre ++ f :: post)).trace) ∧
    (∀ j err, Event.wait j err ∉ (Pipeline (pre ++ f :: post)).trace) ∧
    (Pipeline (pre ++ f :: post)).pipeLineOutput = [] ∧
    (pre = [] → (Pipeline (pre ++ f :: post)).collectedStandardError = []) := by
  obtain ⟨h1, h2, h3, h4⟩ := Pipeline_start_fail pre post f e hconn hpre hf
  have ht : (Pipeline (pre ++ f :: post)).trace =
      (List.range pre.length).map (fun j => Event.start j none) ++
        [Event.start pre.length (some e)] := by
    rw [h2, startEvents, List.range_eq_range']
  refine ⟨h1, ht, ?_, ?_, h3, h4⟩
  · intro j err hj hmem
    rw [ht] at hmem
    simp only [List.mem_append, List.mem_map, List.mem_range, List.mem_singleton,
      Event.start.injEq] at hmem
    rcases hmem with ⟨a, ha, rfl, _⟩ | ⟨rfl, _⟩ <;> omega
  · intro j err hmem
    rw [ht] at hmem
    simp at hmem

/-- Witness for C6: `hello`, then a command that cannot be started, then the
upper-casing command. -/
theorem Pipeline_first_start_failure_witness :
    (Pipeline [echoHello, failsToStart, toUpper]).pipeLineError =
      some "exec: no such file or directory" ∧
    (Pipeline [echoHello, failsToStart, toUpper]).trace =
      [Event.start 0 none, Event.start 1 (some "exec: no such file or directory")] ∧
    (Pipeline [echoHello, failsToStart, toUpper]).pipeLineOutput = [] :=
  have h := Pipeline_first_start_failure [echoHello] [toUpper] failsToStart
    "exec: no such file or directory"
    (by simp [connects, List.dropLast, echoHello, failsToStart])
    (by simp [echoHello]) rfl
  ⟨h.1, h.2.1, h.2.2.2.2.1⟩

/-- C7: when the wiring succeeds, every stage starts and stage `pre.length` is the
first whose wait fails, `Pipeline` returns the wait error of that stage, after
waiting for the stages up to it in order and for no later one. -/
theorem Pipeline_first_wait_failure (pre post : List Cmd) (f : Cmd) (e : Error)
    (hconn : connects (pre ++ f :: post))
    (hstart : ∀ c ∈ pre ++ f :: post, c.startErr = none)
    (hpre : ∀ c ∈ pre, c.waitErr = none) (hf : f.waitErr = some e) :
    (Pipeline (pre ++ f :: post)).pipeLineError = some e ∧
    (Pipeline (pre ++ f :: post)).trace =
      (List.range (pre ++ f :: post).length).map (fun j => Event.start j none) ++
        (List.range pre.length).map (fun j => Event.wait j none) ++
        [Event.wait pre.length (some e)] ∧
    (∀ j err, pre.length < j → Event.wait j err ∉ (Pipeline (pre ++ f :: post)).trace) := by
  obtain ⟨st1, cp, _, _, _, _, h5, _, h7, h8⟩ :=
    Pipeline_all_started (pre ++ f :: post) (by simp) hconn hstart
  rw [waitLoop_fail pre post f e st1 hpre hf] at h7 h8
  simp only at h7 h8
  have ht : (Pipeline (pre ++ f :: post)).trace =
      (List.range (pre ++ f :: post).length).map (fun j => Event.start j none) ++
        (List.range pre.length).map (fun j => Event.wait j none) ++
        [Event.wait pre.length (some e)] := by
    rw [h8, h5, startEvents, waitEvents, List.range_eq_range', List.range_eq_range']
  refine ⟨h7, ht, ?_⟩
  intro j err hj hmem
  rw [ht] at hmem
  simp only [List.mem_append, List.mem_map, List.mem_range, List.mem_singleton,
    Event.wait.injEq, reduceCtorEq, and_false, exists_false, false_or] at hmem
  rcases hmem with ⟨a, ha, rfl, _⟩ | ⟨rfl, _⟩ <;> omega

/-- Witness for C7: `hello`, a command that exits with status 1, and the
upper-casing command, whose own wait is never reached. -/
theorem Pipeline_first_wait_failure_witness :
    (Pipeline [echoHello, exitsNonZero, { toUpper with waitErr := some "exit status 2" }]).pipeLineError =
      some "exit status 1" ∧
    (Pipeline [echoHello, exitsNonZero, { toUpper with waitErr := some "exit status 2" }]).trace =
      [Event.start 0 none, Event.start 1 none, Event.start 2 none, Event.wait 0 none,
        Event.wait 1 (some "exit status 1")] :=
  have h := Pipeline_first_wait_failure [echoHello]
    [{ toUpper with waitErr := some "exit status 2" }] exitsNonZero "exit status 1"
    (by simp [connects, List.dropLast, echoHello, exitsNonZero])
    (by simp [echoHello, exitsNonZero, toUpper]) (by simp [echoHello]) rfl
  ⟨h.1, h.2.1⟩

/-- C8, counterexample: the first of two commands has a `Stdout` assigned by the
caller; both commands would start and exit successfully, yet `Pipeline`
returns an error, and it has made no `Start` or `Wait` call at all. -/
theorem Pipeline_error_without_start_or_wait_failure :
    [stdoutAssigned, toUpper] ≠ [] ∧
    (∀ c ∈ [stdoutAssigned, toUpper], c.startErr = none ∧ c.waitErr = none) ∧
    (Pipeline [stdoutAssigned, toUpper]).pipeLineError = some "exec: Stdout already set" ∧
    (Pipeline [stdoutAssigned, toUpper]).trace = [] := by
  refine ⟨by simp, ?_, rfl, rfl⟩
  simp [stdoutAssigned, toUpper, echoHello]

/-- C8, amended: `Pipeline` returns the nil error exactly when every `StdoutPipe`
call of the wiring succeeds, every stage starts and every wait succeeds. -/
theorem Pipeline_error_nil_iff (cmds : List Cmd) :
    (Pipeline cmds).pipeLineError = none ↔
      connects cmds ∧ (∀ c ∈ cmds, c.startErr = none) ∧ (∀ c ∈ cmds, c.waitErr = none) := by
  by_cases hne : cmds = []
  · subst hne
    simp [Pipeline, connects]
  constructor
  · intro h
    by_cases hconn : connects cmds
    · rcases first_failure Cmd.startErr cmds with hs | ⟨pre, f, post, e, rfl, h2, h3⟩
      · rcases first_failure Cmd.waitErr cmds with hw | ⟨pre, f, post, e, rfl, h2, h3⟩
        · exact ⟨hconn, hs, hw⟩
        · obtain ⟨st1, _, _, _, _, _, _, _, h6, _⟩ :=
            Pipeline_all_started (pre ++ f :: post) hne hconn hs
          rw [waitLoop_fail pre post f e st1 h2 h3] at h6
          rw [h6] at h
          cases h
      · rw [(Pipeline_start_fail pre post f e hconn h2 h3).1] at h
        cases h
    · obtain ⟨err, h1, _⟩ := Pipeline_not_connects cmds hconn
      rw [h1] at h
      cases h
  · rintro ⟨hconn, hs, hw⟩
    obtain ⟨st1, _, _, _, _, _, _, _, h6, _⟩ := Pipeline_all_started cmds hne hconn hs
    rw [h6, waitLoop_all cmds st1 hw]

/-- C9, at the failing input: the first stage writes nothing, the second writes `B`
to its standard error, the wiring, both starts and both waits succeed; the
copiers of both stages write the one shared buffer, and the collected standard
error returned with the nil error is empty, so it does not contain the error
bytes of the second stage. -/
theorem Pipeline_loses_stderr :
    connects [silentSleeper, writesB] ∧
    (∀ c ∈ [silentSleeper, writesB], c.startErr = none ∧ c.waitErr = none) ∧
    (∀ w ∈ (Pipeline [silentSleeper, writesB]).cmds, w.Stderr = Writer.stderrBuf) ∧
    (Pipeline [silentSleeper, writesB]).trace =
      [Event.start 0 none, Event.start 1 none, Event.wait 0 none, Event.wait 1 none] ∧
    (Pipeline [silentSleeper, writesB]).pipeLineError = none ∧
    stageErr [silentSleeper, writesB] 1 = [66] ∧
    (Pipeline [silentSleeper, writesB]).collectedStandardError = [] ∧
    ¬ (stageErr [silentSleeper, writesB] 1 <:+:
        (Pipeline [silentSleeper, writesB]).collectedStandardError) := by
  refine ⟨?_, ?_, ?_, rfl, rfl, rfl, rfl, ?_⟩
  · simp [connects, List.dropLast, silentSleeper, echoHello]
  · simp [silentSleeper, writesB, echoHello]
  · intro w hw
    have h : (Pipeline [silentSleeper, writesB]).cmds =
        [{ silentSleeper with Stdout := Writer.pipe 0, Stderr := Writer.stderrBuf },
         { writesB with Stdin := Reader.pipe 0, Stdout := Writer.outputBuf,
                        Stderr := Writer.stderrBuf }] := rfl
    rw [h] at hw
    simp only [List.mem_cons, List.mem_singleton, List.not_mem_nil, or_false] at hw
    rcases hw with rfl | rfl <;> rfl
  · have h1 : stageErr [silentSleeper, writesB] 1 = [66] := rfl
    have h2 : (Pipeline [silentSleeper, writesB]).collectedStandardError = [] := rfl
    rw [h1, h2]
    decide

/-- C10: when the wiring succeeds, the first command keeps the `Stdin` the caller
assigned, the `Stdin` of every later command is the stdout pipe of the command
before it whatever the caller had assigned, and the output buffer is the
`Stdout` of the last command and of no other. -/
theorem Pipeline_wiring (cmds : List Cmd) (hne : cmds ≠ []) (hconn : connects cmds) :
    (Pipeline cmds).cmds.length = cmds.length ∧
    (∀ j : Nat, (Pipeline cmds).cmds[j]? = (cmds[j]?).map fun (c : Cmd) =>
      { c with
        Stdin := if j = 0 then c.Stdin else Reader.pipe (j - 1)
        Stdout := if j + 1 < cmds.length then Writer.pipe j else Writer.outputBuf
        Stderr := Writer.stderrBuf }) ∧
    ((Pipeline cmds).cmds.head?.map Cmd.Stdin = cmds.head?.map Cmd.Stdin) ∧
    (∀ i w, i + 1 < cmds.length → (Pipeline cmds).cmds[i + 1]? = some w →
      w.Stdin = Reader.pipe i) ∧
    (∀ i w, i + 1 < cmds.length → (Pipeline cmds).cmds[i]? = some w →
      w.Stdout = Writer.pipe i) ∧
    (∀ j w, (Pipeline cmds).cmds[j]? = some w →
      (w.Stdout = Writer.outputBuf ↔ j = cmds.length - 1)) := by
  obtain ⟨c, rest, rfl⟩ : ∃ c rest, cmds = c :: rest := by
    cases cmds with
    | nil => exact absurd rfl hne
    | cons x xs => exact ⟨x, xs, rfl⟩
  have hall : ∀ j : Nat, (Pipeline (c :: rest)).cmds[j]? = ((c :: rest)[j]?).map fun (d : Cmd) =>
      { d with
        Stdin := if j = 0 then d.Stdin else Reader.pipe (j - 1)
        Stdout := if j + 1 < (c :: rest).length then Writer.pipe j else Writer.outputBuf
        Stderr := Writer.stderrBuf } := by
    intro j
    rw [Pipeline_cmds c rest hconn, wiredFrom_getElem_opt]
    cases j with
    | zero => simp
    | succ j => simp
  refine ⟨by rw [Pipeline_cmds c rest hconn, wiredFrom_length], hall, ?_, ?_, ?_, ?_⟩
  · have h0 := hall 0
    rw [← List.head?_eq_getElem?] at h0
    rw [h0]
    simp
  · intro i w hi hw
    rw [hall] at hw
    cases hd : (c :: rest)[i + 1]? with
    | none => rw [hd] at hw; cases hw
    | some d =>
      rw [hd] at hw
      simp only [Option.map_some', Option.some.injEq] at hw
      rw [← hw]
      simp
  · intro i w hi hw
    rw [hall] at hw
    cases hd : (c :: rest)[i]? with
    | none => rw [hd] at hw; cases hw
    | some d =>
      rw [hd] at hw
      simp only [Option.map_some', Option.some.injEq] at hw
      rw [← hw]
      exact if_pos hi
  · intro j w hw
    rw [hall] at hw
    cases hd : (c :: rest)[j]? with
    | none => rw [hd] at hw; cases hw
    | some d =>
      have hj : j < (c :: rest).length := by
        rcases Nat.lt_or_ge j (c :: rest).length with h | h
        · exact h
        · rw [List.getElem?_eq_none h] at hd; cases hd
      rw [hd] at hw
      simp only [Option.map_some', Option.some.injEq] at hw
      rw [← hw]
      by_cases hlast : j + 1 < (c :: rest).length
      · simp only [hlast, if_true]
        constructor
        · intro h; cases h
        · intro h; omega
      · simp only [hlast, if_false, true_iff]
        omega

/-- Witness for C10: the `Stdin` the caller gave to the second command is replaced by
the pipe of the first, whose own `Stdin` is kept. -/
theorem Pipeline_wiring_witness :
    (Pipeline bothWithStdin).cmds.map Cmd.Stdin = [Reader.caller [1, 2], Reader.pipe 0] ∧
    (Pipeline bothWithStdin).cmds.map Cmd.Stdout = [Writer.pipe 0, Writer.outputBuf] ∧
    (Pipeline bothWithStdin).cmds.length = bothWithStdin.length :=
  have h := Pipeline_wiring bothWithStdin (by simp [bothWithStdin])
    (by simp [connects, bothWithStdin, List.dropLast, echoHello])
  ⟨rfl, rfl, h.1⟩

end Installer
